import Mathlib

/-
  Shallow embedding of the Overwatch MCP query-normalization, validation and
  result-shaping core: `src/overwatch_mcp/cache.py`, `tools/graylog.py`,
  `tools/prometheus.py`, `clients/prometheus.py`, `clients/influxdb.py`.

  Embedding conventions:
  * Python strings are embedded as `List Char` (written via `"...".data`),
    because the code compares, slices and pattern-matches them character-wise.
  * Instants and durations (datetime values, TTLs, epoch seconds) are `ℚ`.
  * Python ints are `ℤ`; list slicing `l[:n]` keeps Python's negative-index
    semantics.
  * JSON-shaped Python values (Graylog messages, field infos) are the
    inductive `PyVal`; operations that would raise in Python (attribute
    errors on non-dicts, unhashable dict keys, indexing an empty list)
    return `Except Unit _` errors.
  * External collaborators (the HTTP backends, `datetime.fromisoformat` /
    `float()` absolute-time parsing, `re` pattern compilation) enter as
    explicit parameters: a raw backend payload, an abstract absolute-time
    parse function, an abstract compiled-pattern predicate.
  * The `cachetools.TTLCache` dependency is modelled per its documented
    behaviour: an entry written at `t` with ttl `d` is visible to reads
    strictly before `t + d`; `TTLCache` has a single cache-wide ttl, the one
    the cache was constructed with.
-/

namespace Overwatch

abbrev Str := List Char

/-- Python string comparison: lexicographic on code points (`s1 < s2`). -/
def lexLe (a b : Str) : Bool :=
  match a, b with
  | [], _ => true
  | _ :: _, [] => false
  | c :: cs, d :: ds =>
    if c.toNat < d.toNat then true
    else if d.toNat < c.toNat then false
    else lexLe cs ds

/-- Stable insertion of `x` into a sorted list: `x` goes before the first
element it is `le`-related to (Python `list.sort` / `sorted` are stable). -/
def insertLe (le : α → α → Bool) (x : α) : List α → List α
  | [] => [x]
  | y :: ys => if le x y then x :: y :: ys else y :: insertLe le x ys

/-- Stable insertion sort, the model of Python's stable `list.sort`. -/
def sortLe (le : α → α → Bool) : List α → List α
  | [] => []
  | x :: xs => insertLe le x (sortLe le xs)

/-- Python `sub in s` substring test. -/
def containsSub (p : Str) : Str → Bool
  | [] => p.isEmpty
  | c :: rest => p.isPrefixOf (c :: rest) || containsSub p rest

/-- Value of an ASCII digit string (used by the concrete `float()`
stand-in `digitParse` below). -/
def digitsToNat (ds : Str) : ℕ := ds.foldl (fun a c => 10 * a + (c.toNat - 48)) 0

/-- Base code points of the 66 contiguous runs of Unicode decimal digits
(category Nd; Unicode 14.0, the table shipped with the Python 3.11
runtime).  Each run is ten characters with decimal values 0..9.  In a str
pattern, Python's `\d` matches exactly these characters, and `int()` reads
each by its decimal value. -/
def ndDigitBases : List ℕ :=
  [48, 1632, 1776, 1984, 2406, 2534, 2662, 2790, 2918, 3046, 3174, 3302,
   3430, 3558, 3664, 3792, 3872, 4160, 4240, 6112, 6160, 6470, 6608, 6784,
   6800, 6992, 7088, 7232, 7248, 42528, 43216, 43264, 43472, 43504, 43600,
   44016, 65296, 66720, 68912, 69734, 69872, 69942, 70096, 70384, 70736,
   70864, 71248, 71360, 71472, 71904, 72016, 72784, 73040, 73120, 92768,
   92864, 93008, 120782, 120792, 120802, 120812, 120822, 123200, 123632,
   125264, 130032]

/-- The decimal value of a `\d` (Unicode Nd) character; `none` for
non-digits. -/
def pyDigitVal (c : Char) : Option ℕ :=
  match ndDigitBases.find? (fun b => b ≤ c.toNat && c.toNat < b + 10) with
  | some b => some (c.toNat - b)
  | none => none

/-- Python `int()` on the regex's digit capture: positional decimal over
the characters' decimal values. -/
def digitsVal (ds : Str) : ℕ :=
  ds.foldl (fun a c => 10 * a + (pyDigitVal c).getD 0) 0

/-- Python list slicing `l[:n]` for an arbitrary (possibly negative) `n`. -/
def pySliceTake (n : ℤ) (l : List α) : List α :=
  if n < 0 then l.take ((l.length : ℤ) + n).toNat else l.take n.toNat

/-- Python `str(n)` for a nonnegative count. -/
def natStr (n : ℕ) : Str := (toString n).data

/-- Python `str(n)` for an int. -/
def intStr (n : ℤ) : Str := (toString n).data

/-- Python lowercase of a string (ASCII part, all the code needs). -/
def strLower (s : Str) : Str := s.map Char.toLower

/-- JSON-shaped Python runtime values, as delivered by the backend clients. -/
inductive PyVal where
  | str (s : Str)
  | int (n : ℤ)
  | bool (b : Bool)
  | null
  | list (xs : List PyVal)
  | dict (fs : List (Str × PyVal))

/-- First-match association lookup, the model of Python `dict` access
(insertion-ordered, no duplicate keys in values the backends produce). -/
def assocGet (fs : List (Str × PyVal)) (k : Str) : Option PyVal :=
  match fs with
  | [] => none
  | (k', v) :: rest => if k' = k then some v else assocGet rest k

/-- Python `d.get(k)` on a value that must be a dict (`AttributeError`,
i.e. `.error`, otherwise). -/
def pyGet (v : PyVal) (k : Str) : Except Unit (Option PyVal) :=
  match v with
  | .dict fs => .ok (assocGet fs k)
  | _ => .error ()

/-- Python `d.get(k, default)` on a value that must be a dict. -/
def pyGetD (v : PyVal) (k : Str) (dflt : PyVal) : Except Unit PyVal :=
  match v with
  | .dict fs => .ok ((assocGet fs k).getD dflt)
  | _ => .error ()

/-- Python truthiness of a value. -/
def pyTruthy : PyVal → Bool
  | .str s => !s.isEmpty
  | .int n => decide (n ≠ 0)
  | .bool b => b
  | .null => false
  | .list xs => !xs.isEmpty
  | .dict fs => !fs.isEmpty

/-- Python `a or b` where `a` came from `d.get(k)` (absent key = `None`). -/
def pyOr (a : Option PyVal) (b : PyVal) : PyVal :=
  match a with
  | some v => if pyTruthy v then v else b
  | none => b

/-- Hashable Python values usable as dict keys. -/
inductive PyKey where
  | s (v : Str)
  | i (n : ℤ)
  | b (v : Bool)
  | nil
deriving DecidableEq

/-- Using a value as a dict key: `TypeError` (`.error`) on unhashable
dicts/lists. -/
def pyHashKey : PyVal → Except Unit PyKey
  | .str s => .ok (.s s)
  | .int n => .ok (.i n)
  | .bool v => .ok (.b v)
  | .null => .ok .nil
  | .list _ => .error ()
  | .dict _ => .error ()

/-- Python `str(key)` for a hashable key. -/
def pyKeyStr : PyKey → Str
  | .s v => v
  | .i n => intStr n
  | .b true => "True".data
  | .b false => "False".data
  | .nil => "None".data

/-- `d[k] = d.get(k, 0) + 1` on an insertion-ordered counting dict. -/
def bump : List (PyKey × ℕ) → PyKey → List (PyKey × ℕ)
  | [], k => [(k, 1)]
  | (k', n) :: rest, k =>
    if k' = k then (k', n + 1) :: rest else (k', n) :: bump rest k

/-- `d.get(k, 0)` on a counting dict. -/
def countGet (m : List (PyKey × ℕ)) (k : PyKey) : ℕ :=
  match m with
  | [] => 0
  | (k', n) :: rest => if k' = k then n else countGet rest k

/-- `OverwatchError` occurrences raised by the core, carrying the error code
and the detail fields the claims talk about (`models/errors.py` plus the
`details={...}` payloads at each raise site). -/
inductive OError where
  | invalidQuery
  | invalidPattern
  | timeRangeExceeded (requested_hours : ℚ) (max_hours : ℚ)
  | bucketNotAllowed (requested_bucket : Str) (allowed_buckets : List Str)
deriving DecidableEq

/-- State of one `Cache` instance (`cache.py` `Cache` wrapping a
`cachetools.TTLCache`): the construction-time ttl, the `_ttl_overrides`
insertion-ordered dict, and the live entries as `(key, value, expires_at)`,
newest first.  `Cache.set` stores with the cache-wide default ttl (see the
source comment in `Cache.set`: "we use the default TTL for all entries"). -/
structure CacheState (V : Type) where
  defaultTtl : ℚ
  ttlOverrides : List (Str × ℚ)
  entries : List (Str × V × ℚ)

/-- Iteration of `_ttl_overrides` in insertion order: the first override
whose key-prefix matches wins. -/
def resolveTtl (ovs : List (Str × ℚ)) (dflt : ℚ) (key : Str) : ℚ :=
  match ovs with
  | [] => dflt
  | (p, ttl) :: rest => if p.isPrefixOf key then ttl else resolveTtl rest dflt key

/-- `Cache._get_ttl`: first configured override whose key-prefix matches,
else the default ttl. -/
def cacheGetTtl (c : CacheState V) (key : Str) : ℚ :=
  resolveTtl c.ttlOverrides c.defaultTtl key

/-- `Cache.set key value` at instant `now`: the entry expires at
`now + default_ttl` (the per-key override resolver is not consulted). -/
def cacheSet (c : CacheState V) (now : ℚ) (key : Str) (value : V) :
    CacheState V :=
  { c with entries := (key, value, now + c.defaultTtl) :: c.entries }

/-- Newest entry stored under a key. -/
def entriesFind (es : List (Str × V × ℚ)) (key : Str) : Option (V × ℚ) :=
  match es with
  | [] => none
  | (k, v, e) :: rest => if k = key then some (v, e) else entriesFind rest key

/-- `Cache.get key` at instant `now`: the stored value while it has not
expired, `None` otherwise. -/
def cacheGet (c : CacheState V) (now : ℚ) (key : Str) : Option V :=
  match entriesFind c.entries key with
  | some (v, e) => if now < e then some v else none
  | none => none

/-- The `(\d+)([mhd])` capture against an exactly-consumed tail: the final
character is the unit, the preceding characters must be a nonempty run of
`\d` (Unicode Nd) digits, read by `int()` as their decimal values, and the
unit dispatches to `timedelta(minutes/hours/days)`. -/
def parseRelCore (now : ℚ) (body : Str) : Option ℚ :=
  match body.getLast? with
  | some u =>
    let digits := body.dropLast
    if digits ≠ [] ∧ digits.all (fun c => (pyDigitVal c).isSome) then
      if u = 'm' then some (now - digitsVal digits * 60)
      else if u = 'h' then some (now - digitsVal digits * 3600)
      else if u = 'd' then some (now - digitsVal digits * 86400)
      else none
    else none
  | none => none

/-- The part of `_parse_relative_time` after the leading `-`: the regex
`(\d+)([mhd])$` match.  `$` matches at the end of the string or just
before a newline that ends the string, so exactly one trailing `'\n'` is
tolerated (and stripped) before the core capture runs. -/
def parseRelDash (now : ℚ) (rest : Str) : Option ℚ :=
  parseRelCore now
    (if rest.getLast? = some '\n' then rest.dropLast else rest)

/-- `_parse_relative_time` (identical in `tools/graylog.py` and
`tools/prometheus.py`): `"now"` (by exact string equality) is the current
instant; `-<N><unit>` with unit `m`/`h`/`d` — `N` a nonempty run of
Unicode decimal digits, one trailing newline tolerated by the `$` anchor —
is `N` minutes/hours/days before now; anything else is not a relative time
(`None`). -/
def parseRelativeTime (now : ℚ) (s : Str) : Option ℚ :=
  if s = "now".data then some now
  else
    match s with
    | [] => none
    | c :: rest => if c = '-' then parseRelDash now rest else none

/-- Resolution of one time bound in `_validate_time_range`: the relative
parse first, then the backend-specific absolute parse (`absParse`, the
external `datetime.fromisoformat` / `float()` collaborators); `none` is the
`INVALID_QUERY` raise. -/
def resolveBound (now : ℚ) (absParse : Str → Option ℚ) (s : Str) :
    Option ℚ :=
  match parseRelativeTime now s with
  | some dt => some dt
  | none => absParse s

/-- `tools/graylog.py _validate_time_range`: parse both bounds, reject
`from >= to`, then reject a span whose hours exceed `max_hours + 0.01`
(36-second tolerance). -/
def validateTimeRangeGraylog (now : ℚ) (absParse : Str → Option ℚ)
    (fromTime toTime : Str) (maxHours : ℚ) : Except OError (ℚ × ℚ) :=
  match resolveBound now absParse fromTime with
  | none => .error .invalidQuery
  | some fromDt =>
    match resolveBound now absParse toTime with
    | none => .error .invalidQuery
    | some toDt =>
      if toDt ≤ fromDt then .error .invalidQuery
      else
        let hours := (toDt - fromDt) / 3600
        if hours > maxHours + 1 / 100 then
          .error (.timeRangeExceeded hours maxHours)
        else .ok (fromDt, toDt)

/-- `tools/prometheus.py _validate_time_range`: same shape, the absolute
parse standing for the Unix-float-then-ISO fallback, and no tolerance on
the span check. -/
def validateTimeRangeProm (now : ℚ) (absParse : Str → Option ℚ)
    (start endT : Str) (maxHours : ℚ) : Except OError (ℚ × ℚ) :=
  match resolveBound now absParse start with
  | none => .error .invalidQuery
  | some startDt =>
    match resolveBound now absParse endT with
    | none => .error .invalidQuery
    | some endDt =>
      if endDt ≤ startDt then .error .invalidQuery
      else
        let hours := (endDt - startDt) / 3600
        if hours > maxHours then
          .error (.timeRangeExceeded hours maxHours)
        else .ok (startDt, endDt)

/-- The message-scanning loop of `_generate_search_hints`: for each message,
`msg.get("message", {})`, pick the level via `get("level") or get("Level")
or "unknown"` and the source via `get("source") or get("application") or
get("service") or "unknown"`, and count both into insertion-ordered dicts.
Dict raises (`.get` on a non-dict, unhashable key) surface as `.error`. -/
def collectBreakdowns : List PyVal → List (PyKey × ℕ) → List (PyKey × ℕ) →
    Except Unit (List (PyKey × ℕ) × List (PyKey × ℕ))
  | [], levels, sources => .ok (levels, sources)
  | msg :: rest, levels, sources => do
    let md ← pyGetD msg "message".data (.dict [])
    let l1 ← pyGet md "level".data
    let l2 ← pyGet md "Level".data
    let level := pyOr l1 (pyOr l2 (.str "unknown".data))
    let lk ← pyHashKey level
    let s1 ← pyGet md "source".data
    let s2 ← pyGet md "application".data
    let s3 ← pyGet md "service".data
    let source := pyOr s1 (pyOr s2 (pyOr s3 (.str "unknown".data)))
    let sk ← pyHashKey source
    collectBreakdowns rest (bump levels lk) (bump sources sk)

/-- The hints mapping `_generate_search_hints` returns. -/
structure Hints where
  analysis_tips : List Str
  suggested_filters : List Str
  key_fields : List Str
  level_breakdown : Option (List (PyKey × ℕ))
  source_breakdown : Option (List (PyKey × ℕ))
deriving DecidableEq

/-- `key_fields` constant of `_generate_search_hints`. -/
def keyFieldsList : List Str :=
  ["timestamp".data, "level".data, "source".data, "message".data]

/-- Descending stable order on `(key, count)` pairs:
`sorted(d.items(), key=lambda x: x[1], reverse=True)`. -/
def sortByCountDesc (m : List (PyKey × ℕ)) : List (PyKey × ℕ) :=
  sortLe (fun x y => decide (y.2 ≤ x.2)) m

/-- `tools/graylog.py _generate_search_hints`.  A total translation except
for the Python dict operations on arbitrary message values, which surface
as `.error` exactly where Python would raise. -/
def generateSearchHints (messages : List PyVal) (totalResults : ℤ)
    (query : Str) : Except Unit Hints :=
  if messages.isEmpty then
    .ok { analysis_tips :=
            ["No results found. Try broadening your query or time range.".data]
          suggested_filters := []
          key_fields := keyFieldsList
          level_breakdown := none
          source_breakdown := none }
  else do
    let bd ← collectBreakdowns messages [] []
    let levels := bd.1
    let sources := bd.2
    let levelBreakdown :=
      if levels.isEmpty then none else some (sortByCountDesc levels)
    let errorCount := countGet levels (.s "ERROR".data) +
      countGet levels (.s "error".data) + countGet levels (.s "3".data)
    let warnCount := countGet levels (.s "WARN".data) +
      countGet levels (.s "WARNING".data) + countGet levels (.s "warn".data) +
      countGet levels (.s "4".data)
    let levelTips :=
      if levels.isEmpty then []
      else
        (if errorCount > 0 then
          ["Found ".data ++ natStr errorCount ++
            " ERROR level logs - investigate these first".data] else []) ++
        (if warnCount > 0 then
          ["Found ".data ++ natStr warnCount ++
            " WARN level logs - check for degradation patterns".data] else [])
    let levelFilters :=
      if levels.isEmpty then []
      else if errorCount > 0 then ["level:ERROR".data] else []
    let topSources := (sortByCountDesc sources).take 5
    let sourceBreakdown := if sources.isEmpty then none else some topSources
    let sourceTF ←
      if !sources.isEmpty && sources.length > 1 then
        match topSources with
        | [] => Except.error ()
        | (k, _) :: _ =>
          Except.ok
            (["Most logs from '".data ++ pyKeyStr k ++
                "' - filter by source to focus".data],
             ["source:".data ++ pyKeyStr k])
      else Except.ok ([], [])
    let truncTips :=
      if totalResults > (messages.length : ℤ) then
        ["Results truncated (".data ++ natStr messages.length ++
          " of ".data ++ intStr totalResults ++
          "). Add filters or narrow time range for complete data.".data]
      else []
    let genericFilters :=
      if !containsSub "error".data (strLower query) &&
          !containsSub "level".data (strLower query) then
        ["level:ERROR".data, "level:WARN".data]
      else []
    .ok { analysis_tips := levelTips ++ sourceTF.1 ++ truncTips
          suggested_filters := levelFilters ++ sourceTF.2 ++ genericFilters
          key_fields := keyFieldsList
          level_breakdown := levelBreakdown
          source_breakdown := sourceBreakdown }

/-- The raw Graylog search payload as the tool reads it:
`raw_response.get("messages", [])` and the optional `total_results` field. -/
structure RawSearchResponse where
  messages : List PyVal
  total_results : Option ℤ

/-- The mapping `graylog_search` returns. -/
structure SearchShaped where
  total_results : ℤ
  returned : ℕ
  truncated : Bool
  query : Str
  effective_query : Str
  filter_applied : Bool
  time_from : ℚ
  time_to : ℚ
  messages : List PyVal
  hints : Hints

/-- The response-shaping tail of `graylog_search` (after the backend call):
`total_results = raw.get("total_results", len(messages))`, hint generation,
and the response record with `returned = len(messages)` and
`truncated = total_results > len(messages)`. -/
def graylogSearchShape (raw : RawSearchResponse) (query effectiveQuery : Str)
    (fromDt toDt : ℚ) : Except Unit SearchShaped :=
  let messages := raw.messages
  let totalResults := raw.total_results.getD (messages.length : ℤ)
  match generateSearchHints messages totalResults query with
  | .error e => .error e
  | .ok hints =>
    .ok { total_results := totalResults
          returned := messages.length
          truncated := decide (totalResults > (messages.length : ℤ))
          query := query
          effective_query := effectiveQuery
          filter_applied := decide (effectiveQuery ≠ query)
          time_from := fromDt
          time_to := toDt
          messages := messages
          hints := hints }

/-- The mapping `prometheus_metrics` returns. -/
structure MetricsResult where
  metrics : List Str
  count : ℕ
  total_available : ℕ
  pattern : Option Str
  truncated : Bool
  cached : Bool
deriving DecidableEq

/-- The shaping tail of `prometheus_metrics`: clamp the limit to 500, apply
the compiled pattern's `search` filter (`pat`, an external `re` collaborator),
sort with Python string order, slice to the clamped limit. -/
def prometheusMetricsShape (catalog : List Str) (pat : Option (Str → Bool))
    (limit : ℤ) (patEcho : Option Str) (wasCached : Bool) : MetricsResult :=
  let clamped := min limit 500
  let filtered := match pat with | some p => catalog.filter p | none => catalog
  let sorted := sortLe lexLe filtered
  let total := sorted.length
  let trunc := pySliceTake clamped sorted
  { metrics := trunc
    count := trunc.length
    total_available := total
    pattern := patEcho
    truncated := decide (total > trunc.length)
    cached := wasCached }

/-- `prometheus_metrics` with the cache state and the backend explicit:
returns the shaped result, the cache after the call, and the number of
backend requests issued (0 or 1). -/
def prometheusMetricsRun (backendCatalog : List Str)
    (cache : CacheState (List Str)) (now : ℚ) (pat : Option (Str → Bool))
    (patEcho : Option Str) (limit : ℤ) :
    MetricsResult × CacheState (List Str) × ℕ :=
  let key := "prometheus_metrics".data
  match cacheGet cache now key with
  | some data => (prometheusMetricsShape data pat limit patEcho true, cache, 0)
  | none =>
    (prometheusMetricsShape backendCatalog pat limit patEcho false,
     cacheSet cache now key backendCatalog, 1)

/-- The mapping `graylog_fields` returns; each entry models the
`{"name": ..., "type": ...}` dict as a pair. -/
structure FieldsResult where
  fields : List (Str × PyVal)
  count : ℕ
  total_available : ℕ
  pattern : Option Str
  truncated : Bool
  cached : Bool

/-- The `graylog_fields` loop building `all_fields`:
`field_info if isinstance(field_info, str) else field_info.get("type",
"unknown")`; a non-str non-dict info raises (`.error`). -/
def resolveFields : List (Str × PyVal) → Except Unit (List (Str × PyVal))
  | [] => .ok []
  | (n, fi) :: rest => do
    let t ←
      match fi with
      | .str t => Except.ok (PyVal.str t)
      | .dict fs =>
        Except.ok ((assocGet fs "type".data).getD (.str "unknown".data))
      | _ => Except.error ()
    let restR ← resolveFields rest
    .ok ((n, t) :: restR)

/-- The shaping tail of `graylog_fields`: resolve field types, filter by the
compiled pattern on the name, sort by name, slice to the raw limit.
Unlike `prometheus_metrics`, the source applies no clamp to the limit. -/
def graylogFieldsShape (rawFields : List (Str × PyVal))
    (pat : Option (Str → Bool)) (limit : ℤ) (patEcho : Option Str)
    (wasCached : Bool) : Except Unit FieldsResult := do
  let allFields ← resolveFields rawFields
  let filtered :=
    match pat with
    | some p => allFields.filter (fun f => p f.1)
    | none => allFields
  let sorted := sortLe (fun a b => lexLe a.1 b.1) filtered
  let total := sorted.length
  let trunc := pySliceTake limit sorted
  .ok { fields := trunc
        count := trunc.length
        total_available := total
        pattern := patEcho
        truncated := decide (total > trunc.length)
        cached := wasCached }

/-- `graylog_fields` with the cache state and the backend explicit (the
cached value is the raw name-to-info mapping, as in the source). -/
def graylogFieldsRun (backendFields : List (Str × PyVal))
    (cache : CacheState (List (Str × PyVal))) (now : ℚ)
    (pat : Option (Str → Bool)) (patEcho : Option Str) (limit : ℤ) :
    Except Unit FieldsResult × CacheState (List (Str × PyVal)) × ℕ :=
  let key := "graylog_fields".data
  match cacheGet cache now key with
  | some data => (graylogFieldsShape data pat limit patEcho true, cache, 0)
  | none =>
    (graylogFieldsShape backendFields pat limit patEcho false,
     cacheSet cache now key backendFields, 1)

/-- `clients/influxdb.py InfluxDBClient._validate_bucket`: allow-list
membership, with the full allow-list in the error details. -/
def validateBucket (allowedBuckets : List Str) (bucket : Str) :
    Except OError Unit :=
  if bucket ∈ allowedBuckets then .ok ()
  else .error (.bucketNotAllowed bucket allowedBuckets)

/-- `InfluxDBClient._validate_query_bucket`: the query text must contain
`from(bucket: "<bucket>")` or the no-space variant. -/
def validateQueryBucket (query bucket : Str) : Except OError Unit :=
  if containsSub ("from(bucket: \"".data ++ bucket ++ "\")".data) query ||
      containsSub ("from(bucket:\"".data ++ bucket ++ "\")".data) query then
    .ok ()
  else .error .invalidQuery

/-- `InfluxDBClient.query` up to the backend boundary: both validations run
before any HTTP request; the pair's second component counts backend
requests issued. -/
def influxQueryRun (backendRecords : R) (query bucket : Str)
    (allowedBuckets : List Str) : Except OError R × ℕ :=
  match validateBucket allowedBuckets bucket with
  | .error e => (.error e, 0)
  | .ok _ =>
    match validateQueryBucket query bucket with
    | .error e => (.error e, 0)
    | .ok _ => (.ok backendRecords, 1)

/-- `PrometheusClient._parse_time` output: a relative string passed through,
or an absolute epoch value. -/
inductive PTime where
  | rel (s : Str)
  | abs (t : ℚ)
deriving DecidableEq

/-- `PrometheusClient._parse_time`: `"now"` and `-...` strings pass through;
otherwise the Unix-float-then-ISO absolute parse (`floatIso`, the external
`float()` / `datetime.fromisoformat` collaborators) must succeed. -/
def clientParseTime (floatIso : Str → Option ℚ) (s : Str) :
    Except OError PTime :=
  if s = "now".data || "-".data.isPrefixOf s then .ok (.rel s)
  else
    match floatIso s with
    | some t => .ok (.abs t)
    | none => .error .invalidQuery

/-- Python `int()` applied to a float: truncation toward zero. -/
def pyIntTrunc (q : ℚ) : ℤ := if q < 0 then ⌈q⌉ else ⌊q⌋

/-- The step auto-calculation in `PrometheusClient.query_range`: with both
bounds absolute, `step_seconds = max(1, int(end - start) // 250)` rendered
as `"<n>s"`; with any relative bound, the `"15s"` default; an explicit step
is passed through. -/
def computeStep (parsedStart parsedEnd : PTime) (step : Option Str) : Str :=
  match step with
  | some s => s
  | none =>
    match parsedStart, parsedEnd with
    | .abs a, .abs b =>
      let rangeSeconds : ℤ := pyIntTrunc (b - a)
      let stepSeconds : ℤ := max 1 (Int.fdiv rangeSeconds 250)
      intStr stepSeconds ++ "s".data
    | _, _ => "15s".data

/-- The request parameters `PrometheusClient.query_range` sends: parsed
start, parsed end, and the (possibly auto-calculated) step. -/
def clientRangeParams (floatIso : Str → Option ℚ) (start endT : Str)
    (step : Option Str) : Except OError (PTime × PTime × Str) := do
  let ps ← clientParseTime floatIso start
  let pe ← clientParseTime floatIso endT
  .ok (ps, pe, computeStep ps pe step)

/-- The relative-bound test `prometheus_query_range` applies before caching:
`start.startswith("-") or start == "now"`. -/
def isRelBound (s : Str) : Bool := "-".data.isPrefixOf s || s = "now".data

/-- The cache key `prometheus_query_range` builds,
`f"prom_range:{query}:{start}:{end}:{step}"` (a `None` step renders as
`"None"`). -/
def promRangeCacheKey (query start endT : Str) (step : Option Str) : Str :=
  "prom_range:".data ++ query ++ ":".data ++ start ++ ":".data ++ endT ++
    ":".data ++ (match step with | some s => s | none => "None".data)

/-- `tools/prometheus.py prometheus_query_range` with the cache state and
the backend explicit: validate the range, consult the cache only when both
bounds are non-relative, call the backend (`backendResult`) on a miss or a
relative bound, and write the cache only for a fresh non-relative result.
The last component counts backend requests issued. -/
def prometheusQueryRangeRun (absParse : Str → Option ℚ) (now : ℚ)
    (backendResult : R) (cache : CacheState R) (query start endT : Str)
    (step : Option Str) (maxHours : ℚ) :
    Except OError R × CacheState R × ℕ :=
  match validateTimeRangeProm now absParse start endT maxHours with
  | .error e => (.error e, cache, 0)
  | .ok _ =>
    if !isRelBound start && !isRelBound endT then
      let key := promRangeCacheKey query start endT step
      match cacheGet cache now key with
      | some cachedR => (.ok cachedR, cache, 0)
      | none => (.ok backendResult, cacheSet cache now key backendResult, 1)
    else (.ok backendResult, cache, 1)

instance {ε α : Type} [DecidableEq ε] [DecidableEq α] :
    DecidableEq (Except ε α) := fun a b =>
  match a, b with
  | .error e, .error f =>
    if h : e = f then .isTrue (by rw [h])
    else .isFalse (fun hh => h (by injection hh))
  | .error _, .ok _ => .isFalse (fun hh => Except.noConfusion hh)
  | .ok _, .error _ => .isFalse (fun hh => Except.noConfusion hh)
  | .ok x, .ok y =>
    if h : x = y then .isTrue (by rw [h])
    else .isFalse (fun hh => h (by injection hh))

theorem length_insertLe (le : α → α → Bool) (x : α) (l : List α) :
    (insertLe le x l).length = l.length + 1 := by
  induction l with
  | nil => rfl
  | cons y ys ih =>
    simp only [insertLe]
    by_cases h : le x y = true
    · simp [h]
    · simp [h, ih]

theorem length_sortLe (le : α → α → Bool) (l : List α) :
    (sortLe le l).length = l.length := by
  induction l with
  | nil => rfl
  | cons x xs ih => simp [sortLe, length_insertLe, ih]

/-- A `Cache` configured with default ttl 100 and one `(prefix, ttl)`
override `("k", 10)`. -/
def cacheC1 : CacheState ℕ :=
  { defaultTtl := 100, ttlOverrides := [("k".data, 10)], entries := [] }

/-- C1: the `Cache` entry written by `set` expires with the cache-wide
default ttl: the per-key override resolved by `_get_ttl` plays no role
(`Cache.set` never calls `_get_ttl`; see its source comment).  Concretely,
with default ttl 100 and an override resolving ttl 10 for key `"k"`, the
claim says a read 50 seconds after the write finds nothing; the code still
returns the value. -/
theorem claim_C1_counterexample :
    cacheGetTtl cacheC1 "k".data = 10 ∧
    cacheGet (cacheSet cacheC1 0 "k".data 42) 50 "k".data = some 42 ∧
    ¬ ((50 : ℚ) < 0 + 10) := by
  refine ⟨by decide, ?_, by norm_num⟩
  simp only [cacheSet, cacheGet, entriesFind, if_pos rfl, cacheC1]
  norm_num

/-- C1 (amended): after `set(k, v)` at instant `t₀`, `get(k)` at instant `t`
returns `v` exactly while `t < t₀ + default_ttl`, whatever `(prefix, ttl)`
overrides are configured — the override table of the cache state is
arbitrary here and does not occur in the right-hand side. -/
theorem claim_C1_amended {V : Type} (c : CacheState V) (t0 t : ℚ) (k : Str)
    (v : V) :
    cacheGet (cacheSet c t0 k v) t k =
      if t < t0 + c.defaultTtl then some v else none := by
  simp [cacheSet, cacheGet, entriesFind]

/-- C5: `InfluxDBClient.query` rejects a bucket outside the allow-list with
`BUCKET_NOT_ALLOWED` carrying the full allow-list, and an allowed bucket
whose query text contains neither `from(bucket: "<bucket>")` nor the
no-space variant with `INVALID_QUERY`; in both cases zero backend requests
are issued. -/
theorem claim_C5 {R : Type} (backend : R) (query bucket : Str)
    (allowed : List Str) :
    (bucket ∉ allowed →
      influxQueryRun backend query bucket allowed =
        (.error (.bucketNotAllowed bucket allowed), 0)) ∧
    (bucket ∈ allowed →
      containsSub ("from(bucket: \"".data ++ bucket ++ "\")".data) query
          = false →
      containsSub ("from(bucket:\"".data ++ bucket ++ "\")".data) query
          = false →
      influxQueryRun backend query bucket allowed =
        (.error .invalidQuery, 0)) := by
  constructor
  · intro h
    have hv : validateBucket allowed bucket
        = .error (.bucketNotAllowed bucket allowed) := by
      unfold validateBucket
      rw [if_neg h]
    simp only [influxQueryRun, hv]
  · intro h h1 h2
    have hv : validateBucket allowed bucket = .ok () := by
      unfold validateBucket
      rw [if_pos h]
    have hq : validateQueryBucket query bucket = .error .invalidQuery := by
      unfold validateQueryBucket
      rw [h1, h2]
      simp
    simp only [influxQueryRun, hv, hq]

/-- Allow-list of the C5 witness configuration. -/
def allowedC5 : List Str := ["telegraf".data, "app_metrics".data]

/-- A Flux query referencing bucket `app_metrics`. -/
def fluxC5 : Str := "from(bucket: \"app_metrics\") |> range(start: -1h)".data

/-- C5 witness: the query above submitted with `bucket="telegraf"` fails
with `INVALID_QUERY`, bucket `"other"` fails with `BUCKET_NOT_ALLOWED`,
both with zero backend requests. -/
theorem claim_C5_witness :
    (("telegraf".data ∈ allowedC5) ∧
      influxQueryRun (0 : ℕ) fluxC5 "telegraf".data allowedC5 =
        (.error .invalidQuery, 0)) ∧
    (("other".data ∉ allowedC5) ∧
      influxQueryRun (0 : ℕ) fluxC5 "other".data allowedC5 =
        (.error (.bucketNotAllowed "other".data allowedC5), 0)) :=
  ⟨⟨by decide,
    (claim_C5 0 fluxC5 "telegraf".data allowedC5).2 (by decide) (by decide)
      (by decide)⟩,
   ⟨by decide, (claim_C5 0 fluxC5 "other".data allowedC5).1 (by decide)⟩⟩

/-- The core capture on a well-shaped tail `<digits><unit>`, for any unit
character. -/
theorem parseRelCore_concat (now : ℚ) (ds : Str) (u : Char)
    (h1 : ds ≠ [])
    (h2 : ds.all (fun c => (pyDigitVal c).isSome) = true) :
    parseRelCore now (ds ++ [u]) =
      (if u = 'm' then some (now - digitsVal ds * 60)
       else if u = 'h' then some (now - digitsVal ds * 3600)
       else if u = 'd' then some (now - digitsVal ds * 86400)
       else none) := by
  unfold parseRelCore
  rw [List.getLast?_concat]
  simp only [List.dropLast_concat]
  rw [if_pos ⟨h1, h2⟩]

/-- Without a trailing newline, the `$`-stripping step is the identity. -/
theorem parseRelDash_no_nl (now : ℚ) (rest : Str)
    (h : rest.getLast? ≠ some '\n') :
    parseRelDash now rest = parseRelCore now rest := by
  unfold parseRelDash
  rw [if_neg h]

/-- One trailing newline is stripped before the core capture runs. -/
theorem parseRelDash_nl (now : ℚ) (x : Str) :
    parseRelDash now (x ++ ['\n']) = parseRelCore now x := by
  unfold parseRelDash
  rw [if_pos (List.getLast?_concat x)]
  simp only [List.dropLast_concat]

/-- The parse of a well-shaped relative string `-<digits><unit>`, for any
non-newline unit character. -/
theorem parseRelativeTime_concat (now : ℚ) (ds : Str) (u : Char)
    (h1 : ds ≠ [])
    (h2 : ds.all (fun c => (pyDigitVal c).isSome) = true)
    (hu : u ≠ '\n') :
    parseRelativeTime now ('-' :: (ds ++ [u])) =
      (if u = 'm' then some (now - digitsVal ds * 60)
       else if u = 'h' then some (now - digitsVal ds * 3600)
       else if u = 'd' then some (now - digitsVal ds * 86400)
       else none) := by
  have hn : ('-' :: (ds ++ [u])) ≠ "now".data := by simp
  have hne : (ds ++ [u]).getLast? ≠ some '\n' := by
    rw [List.getLast?_concat]
    simp [hu]
  unfold parseRelativeTime
  rw [if_neg hn]
  show (if '-' = '-' then parseRelDash now (ds ++ [u]) else none) = _
  rw [if_pos rfl, parseRelDash_no_nl now (ds ++ [u]) hne,
    parseRelCore_concat now ds u h1 h2]

/-- A trailing newline after a well-shaped relative string is ignored, as
the regex's `$` anchor ignores it. -/
theorem parseRelativeTime_concat_nl (now : ℚ) (ds : Str) (u : Char)
    (hu : u ≠ '\n') :
    parseRelativeTime now ('-' :: ((ds ++ [u]) ++ ['\n']))
      = parseRelativeTime now ('-' :: (ds ++ [u])) := by
  have hn1 : ('-' :: ((ds ++ [u]) ++ ['\n'])) ≠ "now".data := by simp
  have hn2 : ('-' :: (ds ++ [u])) ≠ "now".data := by simp
  have hne : (ds ++ [u]).getLast? ≠ some '\n' := by
    rw [List.getLast?_concat]
    simp [hu]
  unfold parseRelativeTime
  rw [if_neg hn1, if_neg hn2]
  show (if '-' = '-' then parseRelDash now ((ds ++ [u]) ++ ['\n']) else none)
      = (if '-' = '-' then parseRelDash now (ds ++ [u]) else none)
  rw [if_pos rfl, if_pos rfl, parseRelDash_nl now (ds ++ [u]),
    parseRelDash_no_nl now (ds ++ [u]) hne]

/-- Completeness of the core capture. -/
theorem parseRelCore_shapes (now : ℚ) (body : Str) (t : ℚ)
    (h : parseRelCore now body = some t) :
    ∃ ds u, body = ds ++ [u] ∧ ds ≠ [] ∧
      ds.all (fun c => (pyDigitVal c).isSome) = true ∧
      ((u = 'm' ∧ t = now - digitsVal ds * 60) ∨
       (u = 'h' ∧ t = now - digitsVal ds * 3600) ∨
       (u = 'd' ∧ t = now - digitsVal ds * 86400)) := by
  unfold parseRelCore at h
  rcases hlast : body.getLast? with _ | u
  · rw [hlast] at h
    simp at h
  · rw [hlast] at h
    have hbody : body.dropLast ++ [u] = body :=
      List.dropLast_append_getLast? u hlast
    refine ⟨body.dropLast, u, hbody.symm, ?_⟩
    simp only [] at h
    split at h
    · next hcond =>
      refine ⟨hcond.1, hcond.2, ?_⟩
      split at h
      · next hm => exact Or.inl ⟨hm, by simpa using h.symm⟩
      · split at h
        · next hh => exact Or.inr (Or.inl ⟨hh, by simpa using h.symm⟩)
        · split at h
          · next hd => exact Or.inr (Or.inr ⟨hd, by simpa using h.symm⟩)
          · simp at h
    · simp at h

/-- Completeness of the `-...` branch: the consumed tail is the core shape
followed by an optional single newline. -/
theorem parseRelDash_shapes (now : ℚ) (rest : Str) (t : ℚ)
    (h : parseRelDash now rest = some t) :
    ∃ ds u tail, (tail = [] ∨ tail = ['\n']) ∧ rest = ds ++ [u] ++ tail ∧
      ds ≠ [] ∧ ds.all (fun c => (pyDigitVal c).isSome) = true ∧
      ((u = 'm' ∧ t = now - digitsVal ds * 60) ∨
       (u = 'h' ∧ t = now - digitsVal ds * 3600) ∨
       (u = 'd' ∧ t = now - digitsVal ds * 86400)) := by
  by_cases hnl : rest.getLast? = some '\n'
  · have hrest : rest.dropLast ++ ['\n'] = rest :=
      List.dropLast_append_getLast? '\n' hnl
    rw [← hrest, parseRelDash_nl now rest.dropLast] at h
    obtain ⟨ds, u, hb, h1, h2, hval⟩ := parseRelCore_shapes now _ t h
    exact ⟨ds, u, ['\n'], Or.inr rfl, by rw [← hrest, hb], h1, h2, hval⟩
  · rw [parseRelDash_no_nl now rest hnl] at h
    obtain ⟨ds, u, hb, h1, h2, hval⟩ := parseRelCore_shapes now _ t h
    exact ⟨ds, u, [], Or.inl rfl, by rw [hb]; simp, h1, h2, hval⟩

/-- Completeness of `_parse_relative_time`: every successful parse is the
`"now"` case or a `-<digits><unit>` case with unit `m`, `h` or `d`, the
digits Unicode decimal digits, and at most one trailing newline. -/
theorem parseRelativeTime_shapes (now : ℚ) (s : Str) (t : ℚ)
    (h : parseRelativeTime now s = some t) :
    (s = "now".data ∧ t = now) ∨
    ∃ ds u tail, (tail = [] ∨ tail = ['\n']) ∧
      s = '-' :: (ds ++ [u] ++ tail) ∧ ds ≠ [] ∧
      ds.all (fun c => (pyDigitVal c).isSome) = true ∧
      ((u = 'm' ∧ t = now - digitsVal ds * 60) ∨
       (u = 'h' ∧ t = now - digitsVal ds * 3600) ∨
       (u = 'd' ∧ t = now - digitsVal ds * 86400)) := by
  unfold parseRelativeTime at h
  split at h
  · left
    refine ⟨by assumption, ?_⟩
    simpa using h.symm
  · rcases s with _ | ⟨c, rest⟩
    · simp at h
    · right
      simp only [] at h
      split at h
      · next hc =>
        subst hc
        obtain ⟨ds, u, tail, htail, hrest, hds⟩ :=
          parseRelDash_shapes now rest t h
        exact ⟨ds, u, tail, htail, by rw [hrest], hds⟩
      · simp at h

/-- C7: the completeness clause ("any string matching none of these forms
yields no relative parse") is false of the program.  The regex
`^-(\d+)([mhd])$` is anchored with `$`, which also matches just before a
newline that ends the string, so `"-1h\n"` — which is neither `"now"` nor
of the form `-<digits><unit>` (its final character is a newline, not a
unit) — parses successfully to one hour before now. -/
theorem claim_C7_counterexample :
    parseRelativeTime 0 "-1h\n".data
        = some ((0 : ℚ) - digitsVal "1".data * 3600)
    ∧ digitsVal "1".data = 1
    ∧ "-1h\n".data ≠ "now".data
    ∧ ¬ ∃ ds : Str, ∃ u : Char, u ∈ (['m', 'h', 'd'] : List Char) ∧
        "-1h\n".data = '-' :: (ds ++ [u]) := by
  refine ⟨?_, by decide, by decide, ?_⟩
  · rw [show "-1h\n".data = '-' :: (("1".data ++ ['h']) ++ ['\n']) from rfl]
    rw [parseRelativeTime_concat_nl 0 "1".data 'h' (by decide)]
    rw [parseRelativeTime_concat 0 "1".data 'h' (by decide) (by decide)
      (by decide)]
    rw [if_neg (by decide), if_pos rfl]
  · rintro ⟨ds, u, hu, heq⟩
    have h1 : ("-1h\n".data).getLast? = some '\n' := by decide
    rw [heq, show '-' :: (ds ++ [u]) = ('-' :: ds) ++ [u] from rfl,
      List.getLast?_concat] at h1
    injection h1 with h1
    rw [h1] at hu
    simp at hu

/-- C7 (amended): `_parse_relative_time` sends `"now"` to the current
instant; sends `-<digits><unit>` to exactly `N * unit_seconds` before now
for units `m`/`h`/`d` (60, 3600, 86400 seconds), where the digits are any
Unicode decimal digits read at their decimal values and one trailing
newline is tolerated (and ignored) by the regex's `$` anchor; is strictly
antitone in the digit value for a fixed unit; and parses nothing else
(every successful parse is `"now"` or `-<digits><unit>` with at most one
trailing newline). -/
theorem claim_C7_amended (now : ℚ) :
    parseRelativeTime now "now".data = some now
    ∧ (∀ ds : Str, ds ≠ [] →
        ds.all (fun c => (pyDigitVal c).isSome) = true →
        (parseRelativeTime now ('-' :: (ds ++ ['m']))
            = some (now - digitsVal ds * 60)
        ∧ parseRelativeTime now ('-' :: (ds ++ ['h']))
            = some (now - digitsVal ds * 3600)
        ∧ parseRelativeTime now ('-' :: (ds ++ ['d']))
            = some (now - digitsVal ds * 86400))
        ∧ (∀ u : Char, u ∈ (['m', 'h', 'd'] : List Char) →
            parseRelativeTime now ('-' :: ((ds ++ [u]) ++ ['\n']))
              = parseRelativeTime now ('-' :: (ds ++ [u]))))
    ∧ (∀ ds₁ ds₂ : Str, ∀ u : Char, ∀ t₁ t₂ : ℚ,
        u ∈ (['m', 'h', 'd'] : List Char) →
        ds₁ ≠ [] → ds₁.all (fun c => (pyDigitVal c).isSome) = true →
        ds₂ ≠ [] → ds₂.all (fun c => (pyDigitVal c).isSome) = true →
        parseRelativeTime now ('-' :: (ds₁ ++ [u])) = some t₁ →
        parseRelativeTime now ('-' :: (ds₂ ++ [u])) = some t₂ →
        digitsVal ds₁ < digitsVal ds₂ → t₂ < t₁)
    ∧ (∀ s : Str, ∀ t : ℚ, parseRelativeTime now s = some t →
        (s = "now".data ∧ t = now) ∨
        ∃ ds u tail, (tail = [] ∨ tail = ['\n']) ∧
          s = '-' :: (ds ++ [u] ++ tail) ∧ ds ≠ [] ∧
          ds.all (fun c => (pyDigitVal c).isSome) = true ∧
          ((u = 'm' ∧ t = now - digitsVal ds * 60) ∨
           (u = 'h' ∧ t = now - digitsVal ds * 3600) ∨
           (u = 'd' ∧ t = now - digitsVal ds * 86400))) := by
  refine ⟨by simp [parseRelativeTime], ?_, ?_,
    fun s t h => parseRelativeTime_shapes now s t h⟩
  · intro ds h1 h2
    constructor
    · refine ⟨?_, ?_, ?_⟩
      · simp [parseRelativeTime_concat now ds 'm' h1 h2 (by decide)]
      · simp [parseRelativeTime_concat now ds 'h' h1 h2 (by decide)]
      · simp [parseRelativeTime_concat now ds 'd' h1 h2 (by decide)]
    · intro u hu
      have hu' : u ≠ '\n' := by
        fin_cases hu <;> decide
      exact parseRelativeTime_concat_nl now ds u hu'
  · intro ds₁ ds₂ u t₁ t₂ hu h1 h2 h3 h4 hp₁ hp₂ hlt
    have hu' : u ≠ '\n' := by
      fin_cases hu <;> decide
    have hcast : (digitsVal ds₁ : ℚ) < (digitsVal ds₂ : ℚ) := by
      exact_mod_cast hlt
    rw [parseRelativeTime_concat now ds₁ u h1 h2 hu'] at hp₁
    rw [parseRelativeTime_concat now ds₂ u h3 h4 hu'] at hp₂
    fin_cases hu <;> simp at hp₁ hp₂ <;> rw [← hp₁, ← hp₂] <;>
      [nlinarith; nlinarith; nlinarith]

/-- C7 witness: at `now = 0`, `"now"` parses to `0`; `"-45h"` parses to
`0 - 45 * 3600`; `"-٣m"` (Arabic-Indic digit three) parses to
`0 - 3 * 60`; `"-45h\n"` parses like `"-45h"`; `"-2d"` parses strictly
earlier than `"-1d"`. -/
theorem claim_C7_amended_witness :
    parseRelativeTime 0 "now".data = some 0 ∧
    parseRelativeTime 0 ('-' :: ("45".data ++ ['h']))
        = some ((0 : ℚ) - digitsVal "45".data * 3600) ∧
    digitsVal "45".data = 45 ∧
    parseRelativeTime 0 ('-' :: ("٣".data ++ ['m']))
        = some ((0 : ℚ) - digitsVal "٣".data * 60) ∧
    digitsVal "٣".data = 3 ∧
    parseRelativeTime 0 ('-' :: (("45".data ++ ['h']) ++ ['\n']))
        = parseRelativeTime 0 ('-' :: ("45".data ++ ['h'])) ∧
    (parseRelativeTime 0 ('-' :: ("1".data ++ ['d']))
        = some ((0 : ℚ) - digitsVal "1".data * 86400) →
      parseRelativeTime 0 ('-' :: ("2".data ++ ['d']))
        = some ((0 : ℚ) - digitsVal "2".data * 86400) →
      (0 : ℚ) - digitsVal "2".data * 86400
        < 0 - digitsVal "1".data * 86400) :=
  ⟨(claim_C7_amended 0).1,
   (((claim_C7_amended 0).2.1 "45".data (by decide) (by decide)).1).2.1,
   by decide,
   (((claim_C7_amended 0).2.1 "٣".data (by decide) (by decide)).1).1,
   by decide,
   ((claim_C7_amended 0).2.1 "45".data (by decide) (by decide)).2 'h'
     (by decide),
   fun hp₁ hp₂ =>
     (claim_C7_amended 0).2.2.1 "1".data "2".data 'd' _ _ (by decide)
       (by decide) (by decide) (by decide) (by decide) hp₁ hp₂
       (by decide)⟩

/-- A successful relative parse settles `resolveBound`. -/
theorem resolveBound_rel (now d : ℚ) (absParse : Str → Option ℚ) (s : Str)
    (h : parseRelativeTime now s = some d) :
    resolveBound now absParse s = some d := by
  unfold resolveBound
  rw [h]

/-- C4: full characterization of the two `_validate_time_range` variants.
A bound that resolves through neither the relative nor the absolute parse,
or a resolved `from >= to`, yields `INVALID_QUERY` in both variants; a
resolved span of `h` hours yields `TIME_RANGE_EXCEEDED` carrying
`requested_hours = h` and `max_hours` exactly when `h > max_hours + 0.01`
(Graylog) respectively `h > max_hours` (Prometheus, no tolerance);
otherwise both return the parsed pair. -/
theorem claim_C4 (now : ℚ) (absParse : Str → Option ℚ) (fromT toT : Str)
    (maxH : ℚ) :
    ((resolveBound now absParse fromT = none ∨
        resolveBound now absParse toT = none) →
      validateTimeRangeGraylog now absParse fromT toT maxH
          = .error .invalidQuery
      ∧ validateTimeRangeProm now absParse fromT toT maxH
          = .error .invalidQuery)
    ∧ (∀ f t : ℚ, resolveBound now absParse fromT = some f →
        resolveBound now absParse toT = some t →
        (t ≤ f →
          validateTimeRangeGraylog now absParse fromT toT maxH
              = .error .invalidQuery
          ∧ validateTimeRangeProm now absParse fromT toT maxH
              = .error .invalidQuery)
        ∧ (f < t →
            ((t - f) / 3600 > maxH + 1 / 100 →
              validateTimeRangeGraylog now absParse fromT toT maxH
                = .error (.timeRangeExceeded ((t - f) / 3600) maxH))
            ∧ ((t - f) / 3600 ≤ maxH + 1 / 100 →
              validateTimeRangeGraylog now absParse fromT toT maxH
                = .ok (f, t))
            ∧ ((t - f) / 3600 > maxH →
              validateTimeRangeProm now absParse fromT toT maxH
                = .error (.timeRangeExceeded ((t - f) / 3600) maxH))
            ∧ ((t - f) / 3600 ≤ maxH →
              validateTimeRangeProm now absParse fromT toT maxH
                = .ok (f, t)))) := by
  constructor
  · intro h
    rcases h with h | h
    · constructor <;> simp only [validateTimeRangeGraylog,
        validateTimeRangeProm, h]
    · rcases hf : resolveBound now absParse fromT with _ | f <;>
        constructor <;>
        simp only [validateTimeRangeGraylog, validateTimeRangeProm, h, hf]
  · intro f t hf ht
    constructor
    · intro hle
      constructor <;>
        simp only [validateTimeRangeGraylog, validateTimeRangeProm, hf, ht,
          if_pos hle]
    · intro hlt
      have hnle : ¬ (t ≤ f) := not_le.2 hlt
      refine ⟨?_, ?_, ?_, ?_⟩ <;> intro hspan <;>
        simp only [validateTimeRangeGraylog, validateTimeRangeProm, hf, ht,
          if_neg hnle]
      · rw [if_pos hspan]
      · rw [if_neg (not_lt.2 hspan)]
      · rw [if_pos hspan]
      · rw [if_neg (not_lt.2 hspan)]

/-- C4 witness: at `now = 0` with an absolute parser that rejects
everything, `-2h .. now` with a 1-hour limit trips `TIME_RANGE_EXCEEDED`
with `requested_hours = 2` in both variants, `-30m .. now` passes, and
`now .. now` is `INVALID_QUERY`. -/
theorem claim_C4_witness :
    validateTimeRangeGraylog 0 (fun _ => none) "-2h".data "now".data 1
        = .error (.timeRangeExceeded 2 1) ∧
    validateTimeRangeProm 0 (fun _ => none) "-2h".data "now".data 1
        = .error (.timeRangeExceeded 2 1) ∧
    validateTimeRangeGraylog 0 (fun _ => none) "-30m".data "now".data 1
        = .ok (-1800, 0) ∧
    validateTimeRangeProm 0 (fun _ => none) "now".data "now".data 1
        = .error .invalidQuery ∧
    validateTimeRangeGraylog 0 (fun _ => none) "nope".data "now".data 1
        = .error .invalidQuery := by
  have hres2h : resolveBound 0 (fun _ => none) "-2h".data = some (-7200) := by
    apply resolveBound_rel
    have hpc := parseRelativeTime_concat 0 "2".data 'h' (by decide)
      (by decide) (by decide)
    rw [if_neg (by decide), if_pos rfl] at hpc
    rw [show ('-' :: ("2".data ++ ['h'])) = "-2h".data from rfl] at hpc
    rw [hpc, show digitsVal "2".data = 2 from by decide]
    norm_num
  have hres30m : resolveBound 0 (fun _ => none) "-30m".data
      = some (-1800) := by
    apply resolveBound_rel
    have hpc := parseRelativeTime_concat 0 "30".data 'm' (by decide)
      (by decide) (by decide)
    rw [if_pos rfl] at hpc
    rw [show ('-' :: ("30".data ++ ['m'])) = "-30m".data from rfl] at hpc
    rw [hpc, show digitsVal "30".data = 30 from by decide]
    norm_num
  have hresnow : resolveBound 0 (fun _ => none) "now".data = some 0 :=
    resolveBound_rel _ _ _ _ (by simp [parseRelativeTime])
  have hresbad : resolveBound 0 (fun _ => none) "nope".data = none := by
    simp [resolveBound, parseRelativeTime]
  have h2 := (claim_C4 0 (fun _ => none) "-2h".data "now".data 1).2
    (-7200) 0 hres2h hresnow
  have h30 := (claim_C4 0 (fun _ => none) "-30m".data "now".data 1).2
    (-1800) 0 hres30m hresnow
  have hnn := (claim_C4 0 (fun _ => none) "now".data "now".data 1).2
    0 0 hresnow hresnow
  have hbad := (claim_C4 0 (fun _ => none) "nope".data "now".data 1).1
    (Or.inl hresbad)
  refine ⟨?_, ?_, ?_, ?_, hbad.1⟩
  · have := (h2.2 (by norm_num)).1 (by norm_num)
    convert this using 3
    norm_num
  · have := (h2.2 (by norm_num)).2.2.1 (by norm_num)
    convert this using 3
    norm_num
  · exact (h30.2 (by norm_num)).2.1 (by norm_num)
  · exact (hnn.1 (by norm_num)).2

/-- A raw backend search payload reporting `total_results = 0` while
carrying one message. -/
def rawC2 : RawSearchResponse := ⟨[PyVal.dict []], some 0⟩

/-- C2: the invariant `returned <= total_results` fails on the code.  For a
raw response with one message and `total_results = 0`, `graylog_search`
echoes the backend total unclamped: `returned = 1 > 0 = total_results`
(while `returned == len(messages)` and the `truncated` equation do hold). -/
theorem claim_C2_counterexample :
    (graylogSearchShape rawC2 [] [] 0 1).map
        (fun r => (r.returned, r.total_results, r.truncated))
      = .ok (1, 0, false) ∧
    ¬ ((1 : ℤ) ≤ 0) := by
  constructor
  · decide
  · decide

/-- C2 (amended): every result of `graylog_search` satisfies
`returned == len(messages)` and `truncated == (total_results > returned)`
and leaves the message list untouched; `returned <= total_results` holds
whenever the backend omits `total_results` or reports a value at least
`len(messages)`, but a smaller reported value is echoed unclamped. -/
theorem claim_C2_amended (raw : RawSearchResponse) (q eq2 : Str) (a b : ℚ)
    (r : SearchShaped) (h : graylogSearchShape raw q eq2 a b = .ok r) :
    r.returned = raw.messages.length
    ∧ (r.truncated = true ↔ r.total_results > (r.returned : ℤ))
    ∧ r.messages = raw.messages
    ∧ (∀ n : ℤ, raw.total_results = some n →
        (raw.messages.length : ℤ) ≤ n →
        (r.returned : ℤ) ≤ r.total_results)
    ∧ (raw.total_results = none →
        (r.returned : ℤ) ≤ r.total_results) := by
  simp only [graylogSearchShape] at h
  rcases hg : generateSearchHints raw.messages
      (raw.total_results.getD (raw.messages.length : ℤ)) q with _ | hints
  · rw [hg] at h
    exact absurd h (by simp)
  · rw [hg] at h
    injection h with h
    subst h
    refine ⟨rfl, by simp, rfl, ?_, ?_⟩
    · intro n hn hlen
      simp only [hn, Option.getD_some]
      exact hlen
    · intro hn
      simp [hn]

/-- The hints mapping for an empty result list. -/
def emptyHints : Hints :=
  { analysis_tips :=
      ["No results found. Try broadening your query or time range.".data]
    suggested_filters := []
    key_fields := keyFieldsList
    level_breakdown := none
    source_breakdown := none }

/-- The shaped response for an empty raw payload. -/
def sampleShapedC2 : SearchShaped :=
  { total_results := 0, returned := 0, truncated := false, query := []
    effective_query := [], filter_applied := false, time_from := 0
    time_to := 1, messages := [], hints := emptyHints }

/-- C2 witness: the amended invariants at the empty raw payload. -/
theorem claim_C2_amended_witness :
    graylogSearchShape ⟨[], none⟩ [] [] 0 1 = .ok sampleShapedC2 ∧
    (sampleShapedC2.returned = ([] : List PyVal).length
      ∧ (sampleShapedC2.truncated = true ↔
          sampleShapedC2.total_results > (sampleShapedC2.returned : ℤ))
      ∧ sampleShapedC2.messages = ([] : List PyVal)
      ∧ (∀ n : ℤ, (none : Option ℤ) = some n →
          ((([] : List PyVal).length : ℤ)) ≤ n →
          (sampleShapedC2.returned : ℤ) ≤ sampleShapedC2.total_results)
      ∧ ((none : Option ℤ) = none →
          (sampleShapedC2.returned : ℤ) ≤ sampleShapedC2.total_results)) :=
  ⟨rfl, claim_C2_amended ⟨[], none⟩ [] [] 0 1 sampleShapedC2 rfl⟩

/-- `resolveFields` is the identity on catalogs whose infos are plain
strings. -/
theorem resolveFields_str (l : List (Str × PyVal))
    (h : ∀ p ∈ l, ∃ s, p.2 = PyVal.str s) : resolveFields l = .ok l := by
  induction l with
  | nil => rfl
  | cons p rest ih =>
    obtain ⟨s, hs⟩ := h p (by simp)
    obtain ⟨n, fi⟩ := p
    simp only at hs
    subst hs
    have ihr : resolveFields rest = .ok rest :=
      ih (fun p hp => h p (by simp [hp]))
    simp only [resolveFields, ihr]
    rfl

/-- The 501-field raw catalog of the C3 failing input. -/
def catalogC3 : List (Str × PyVal) :=
  (List.range 501).map (fun i => (natStr i, PyVal.str "string".data))

/-- The 501-metric raw catalog used for contrast on the Prometheus side. -/
def metricsC3 : List Str := (List.range 501).map natStr

/-- C3 failing-input evaluation: `graylog_fields` with a 501-entry catalog,
no pattern and `limit = 501` returns all 501 entries (`count = 501`,
`truncated = false`) — the claimed clamp of the limit to 500 (also promised
by the function's own docstring, "Max: 500") is absent from the code, while
the sibling `prometheus_metrics` does clamp (`count = 500`,
`truncated = true` on the same input). -/
theorem claim_C3_evaluated :
    (graylogFieldsShape catalogC3 none 501 none false).map
        (fun r => (r.count, r.total_available, r.truncated))
      = .ok (501, 501, false)
    ∧ ((prometheusMetricsShape metricsC3 none 501 none false).count,
        (prometheusMetricsShape metricsC3 none 501 none false).truncated)
      = (500, true) := by
  have hlen : catalogC3.length = 501 := by
    simp [catalogC3]
  have hres : resolveFields catalogC3 = .ok catalogC3 := by
    apply resolveFields_str
    intro p hp
    rcases List.mem_map.1 hp with ⟨i, _, rfl⟩
    exact ⟨_, rfl⟩
  constructor
  · have hsl : (sortLe (fun a b => lexLe a.1 b.1) catalogC3).length = 501 := by
      rw [length_sortLe, hlen]
    have htake :
        (pySliceTake 501 (sortLe (fun a b => lexLe a.1 b.1) catalogC3)).length
          = 501 := by
      simp [pySliceTake, List.length_take, hsl]
    have hform : graylogFieldsShape catalogC3 none 501 none false = .ok
        { fields := pySliceTake 501 (sortLe (fun a b => lexLe a.1 b.1)
            catalogC3)
          count := (pySliceTake 501 (sortLe (fun a b => lexLe a.1 b.1)
            catalogC3)).length
          total_available :=
            (sortLe (fun a b => lexLe a.1 b.1) catalogC3).length
          pattern := none
          truncated := decide
            ((sortLe (fun a b => lexLe a.1 b.1) catalogC3).length >
              (pySliceTake 501 (sortLe (fun a b => lexLe a.1 b.1)
                catalogC3)).length)
          cached := false } := by
      unfold graylogFieldsShape
      rw [hres]
      rfl
    rw [hform]
    simp [Except.map, htake, hsl]
  · have hml : metricsC3.length = 501 := by simp [metricsC3]
    have hsl : (sortLe lexLe metricsC3).length = 501 := by
      rw [length_sortLe, hml]
    have htake : (pySliceTake 500 (sortLe lexLe metricsC3)).length
        = 500 := by
      simp [pySliceTake, List.length_take, hsl]
    simp [prometheusMetricsShape, htake, hsl]

/-- Reading back the key just written: visible until the default ttl
elapses. -/
theorem cacheGet_set_same {V : Type} (c : CacheState V) (t0 t : ℚ) (k : Str)
    (v : V) :
    cacheGet (cacheSet c t0 k v) t k =
      if t < t0 + c.defaultTtl then some v else none := by
  simp [cacheSet, cacheGet, entriesFind]

/-- The `cached` flag is the only output of `prometheus_metrics` shaping
that depends on where the catalog came from. -/
theorem prometheusMetricsShape_cached (catalog : List Str)
    (pat : Option (Str → Bool)) (lim : ℤ) (pe : Option Str) (b : Bool) :
    prometheusMetricsShape catalog pat lim pe b =
      { prometheusMetricsShape catalog pat lim pe false with cached := b } :=
  rfl

/-- The `cached` flag is the only output of `graylog_fields` shaping that
depends on where the catalog came from. -/
theorem graylogFieldsShape_cached (raw : List (Str × PyVal))
    (pat : Option (Str → Bool)) (lim : ℤ) (pe : Option Str) (b : Bool) :
    graylogFieldsShape raw pat lim pe b =
      (graylogFieldsShape raw pat lim pe false).map
        (fun r => { r with cached := b }) := by
  unfold graylogFieldsShape
  rcases hres : resolveFields raw with e | all
  · rfl
  · rfl

/-- C6: within the TTL window, catalog listing is idempotent.  A first
`prometheus_metrics` call on a cold cache reports `cached = false` and
issues one backend request; a second call strictly before the entry's
expiry reports `cached = true`, issues none, leaves the cache unchanged
and returns the same result up to the `cached` flag (hence entries derived
from the same raw catalog).  Likewise for `graylog_fields`. -/
theorem claim_C6 (B : List Str) (F : List (Str × PyVal))
    (cp : CacheState (List Str)) (cg : CacheState (List (Str × PyVal)))
    (t₁ t₂ : ℚ) (pat : Option (Str → Bool)) (pe : Option Str) (lim : ℤ)
    (hp : cacheGet cp t₁ "prometheus_metrics".data = none)
    (hpw : t₂ < t₁ + cp.defaultTtl)
    (hg : cacheGet cg t₁ "graylog_fields".data = none)
    (hgw : t₂ < t₁ + cg.defaultTtl) :
    ((prometheusMetricsRun B cp t₁ pat pe lim).1.cached = false
      ∧ (prometheusMetricsRun B cp t₁ pat pe lim).2.2 = 1
      ∧ prometheusMetricsRun B (prometheusMetricsRun B cp t₁ pat pe lim).2.1
          t₂ pat pe lim
        = ({ (prometheusMetricsRun B cp t₁ pat pe lim).1 with cached := true },
           (prometheusMetricsRun B cp t₁ pat pe lim).2.1, 0))
    ∧ ((graylogFieldsRun F cg t₁ pat pe lim).1
          = graylogFieldsShape F pat lim pe false
      ∧ (graylogFieldsRun F cg t₁ pat pe lim).2.2 = 1
      ∧ graylogFieldsRun F (graylogFieldsRun F cg t₁ pat pe lim).2.1
          t₂ pat pe lim
        = ((graylogFieldsRun F cg t₁ pat pe lim).1.map
            (fun r => { r with cached := true }),
           (graylogFieldsRun F cg t₁ pat pe lim).2.1, 0)) := by
  have hrun1p : prometheusMetricsRun B cp t₁ pat pe lim
      = (prometheusMetricsShape B pat lim pe false,
         cacheSet cp t₁ "prometheus_metrics".data B, 1) := by
    simp only [prometheusMetricsRun]
    rw [hp]
  have hget2p : cacheGet (cacheSet cp t₁ "prometheus_metrics".data B) t₂
      "prometheus_metrics".data = some B := by
    rw [cacheGet_set_same, if_pos hpw]
  have hrun1g : graylogFieldsRun F cg t₁ pat pe lim
      = (graylogFieldsShape F pat lim pe false,
         cacheSet cg t₁ "graylog_fields".data F, 1) := by
    simp only [graylogFieldsRun]
    rw [hg]
  have hget2g : cacheGet (cacheSet cg t₁ "graylog_fields".data F) t₂
      "graylog_fields".data = some F := by
    rw [cacheGet_set_same, if_pos hgw]
  refine ⟨⟨?_, ?_, ?_⟩, ⟨?_, ?_, ?_⟩⟩
  · rw [hrun1p]
    rfl
  · rw [hrun1p]
  · rw [hrun1p]
    simp only [prometheusMetricsRun]
    rw [hget2p, prometheusMetricsShape_cached]
    rfl
  · rw [hrun1g]
  · rw [hrun1g]
  · rw [hrun1g]
    simp only [graylogFieldsRun]
    rw [hget2g]
    show (graylogFieldsShape F pat lim pe true,
      cacheSet cg t₁ "graylog_fields".data F, 0) = _
    rw [graylogFieldsShape_cached F pat lim pe true]

/-- C6 witness: concrete one-entry catalogs, cold caches with ttls 60 and
300, first call at `t = 0`, second at `t = 1`. -/
theorem claim_C6_witness :
    (cacheGet (⟨60, [], []⟩ : CacheState (List Str)) 0
        "prometheus_metrics".data = none
      ∧ (1 : ℚ) < 0 + (⟨60, [], []⟩ : CacheState (List Str)).defaultTtl
      ∧ cacheGet (⟨300, [], []⟩ : CacheState (List (Str × PyVal))) 0
          "graylog_fields".data = none
      ∧ (1 : ℚ) < 0 +
          (⟨300, [], []⟩ : CacheState (List (Str × PyVal))).defaultTtl)
    ∧ ((prometheusMetricsRun ["m1".data] ⟨60, [], []⟩ 0 none none
          100).1.cached = false
      ∧ (prometheusMetricsRun ["m1".data] ⟨60, [], []⟩ 0 none none 100).2.2
          = 1
      ∧ prometheusMetricsRun ["m1".data]
          (prometheusMetricsRun ["m1".data] ⟨60, [], []⟩ 0 none none
            100).2.1 1 none none 100
        = ({ (prometheusMetricsRun ["m1".data] ⟨60, [], []⟩ 0 none none
              100).1 with cached := true },
           (prometheusMetricsRun ["m1".data] ⟨60, [], []⟩ 0 none none
             100).2.1, 0))
    ∧ ((graylogFieldsRun [("f1".data, PyVal.str "string".data)]
          ⟨300, [], []⟩ 0 none none 100).1
        = graylogFieldsShape [("f1".data, PyVal.str "string".data)] none 100
            none false
      ∧ (graylogFieldsRun [("f1".data, PyVal.str "string".data)]
          ⟨300, [], []⟩ 0 none none 100).2.2 = 1
      ∧ graylogFieldsRun [("f1".data, PyVal.str "string".data)]
          (graylogFieldsRun [("f1".data, PyVal.str "string".data)]
            ⟨300, [], []⟩ 0 none none 100).2.1 1 none none 100
        = ((graylogFieldsRun [("f1".data, PyVal.str "string".data)]
             ⟨300, [], []⟩ 0 none none 100).1.map
            (fun r => { r with cached := true }),
           (graylogFieldsRun [("f1".data, PyVal.str "string".data)]
             ⟨300, [], []⟩ 0 none none 100).2.1, 0)) := by
  have h := claim_C6 ["m1".data] [("f1".data, PyVal.str "string".data)]
    ⟨60, [], []⟩ ⟨300, [], []⟩ 0 1 none none 100
    rfl (by norm_num) rfl (by norm_num)
  exact ⟨⟨rfl, by norm_num, rfl, by norm_num⟩, h.1, h.2⟩

/-- Values usable as Python dict keys (everything but dicts and lists in
the JSON fragment). -/
def hashableVal : PyVal → Bool
  | .dict _ => false
  | .list _ => false
  | _ => true

/-- Whether a `msg.get("message", {})` result is a mapping with hashable
(non-container) values.  An absent field falls back to the `{}` default and
is fine. -/
def msgDataOk : Option PyVal → Bool
  | none => true
  | some (.dict md) => md.all (fun kv => hashableVal kv.2)
  | some _ => false

/-- The message shapes `_generate_search_hints` tolerates: a dict whose
`message` field is absent or is itself a dict with hashable (non-container)
values.  Field-sparse and fully empty records are well-formed. -/
def wellFormedMsg : PyVal → Bool
  | .dict fs => msgDataOk (assocGet fs "message".data)
  | _ => false

theorem bind_ok_except {ε α β : Type} (a : α) (f : α → Except ε β) :
    ((Except.ok a : Except ε α) >>= f) = f a := rfl

theorem assocGet_hashable {md : List (Str × PyVal)} {k : Str} {v : PyVal}
    (hall : md.all (fun kv => hashableVal kv.2) = true)
    (hget : assocGet md k = some v) : hashableVal v = true := by
  induction md with
  | nil => simp [assocGet] at hget
  | cons p rest ih =>
    rw [List.all_cons, Bool.and_eq_true] at hall
    unfold assocGet at hget
    by_cases hk : p.1 = k
    · rw [if_pos hk] at hget
      injection hget with hget
      rw [← hget]
      exact hall.1
    · rw [if_neg hk] at hget
      exact ih hall.2 hget

theorem pyOr_hashable {a : Option PyVal} {b : PyVal}
    (ha : ∀ v, a = some v → hashableVal v = true)
    (hb : hashableVal b = true) : hashableVal (pyOr a b) = true := by
  cases a with
  | none => exact hb
  | some v =>
    show hashableVal (if pyTruthy v = true then v else b) = true
    by_cases ht : pyTruthy v = true
    · rw [if_pos ht]
      exact ha v rfl
    · rw [if_neg ht]
      exact hb

theorem pyHashKey_ok {v : PyVal} (h : hashableVal v = true) :
    ∃ k, pyHashKey v = .ok k := by
  cases v with
  | str s => exact ⟨_, rfl⟩
  | int n => exact ⟨_, rfl⟩
  | bool b => exact ⟨_, rfl⟩
  | null => exact ⟨_, rfl⟩
  | list xs => simp [hashableVal] at h
  | dict fs => simp [hashableVal] at h

/-- One step of the message-scanning loop on a well-formed dict message. -/
theorem collectBreakdowns_cons_dict (fs : List (Str × PyVal))
    (rest : List PyVal) (ls ss : List (PyKey × ℕ))
    (md : List (Str × PyVal))
    (hmd : pyGetD (PyVal.dict fs) "message".data (PyVal.dict [])
      = .ok (PyVal.dict md))
    (lk sk : PyKey)
    (hlk : pyHashKey (pyOr (assocGet md "level".data)
      (pyOr (assocGet md "Level".data) (.str "unknown".data))) = .ok lk)
    (hsk : pyHashKey (pyOr (assocGet md "source".data)
      (pyOr (assocGet md "application".data)
        (pyOr (assocGet md "service".data) (.str "unknown".data))))
      = .ok sk) :
    collectBreakdowns (PyVal.dict fs :: rest) ls ss
      = collectBreakdowns rest (bump ls lk) (bump ss sk) := by
  simp only [collectBreakdowns, hmd, bind_ok_except, pyGet, hlk, hsk]

/-- The message-scanning loop succeeds on any list of well-formed
messages. -/
theorem collectBreakdowns_ok (msgs : List PyVal)
    (h : msgs.all wellFormedMsg = true) :
    ∀ ls ss, ∃ out, collectBreakdowns msgs ls ss = .ok out := by
  induction msgs with
  | nil => exact fun ls ss => ⟨(ls, ss), rfl⟩
  | cons m rest ih =>
    intro ls ss
    rw [List.all_cons, Bool.and_eq_true] at h
    have hm := h.1
    cases m with
    | str s => simp [wellFormedMsg] at hm
    | int n => simp [wellFormedMsg] at hm
    | bool b => simp [wellFormedMsg] at hm
    | null => simp [wellFormedMsg] at hm
    | list xs => simp [wellFormedMsg] at hm
    | dict fs =>
      simp only [wellFormedMsg] at hm
      rcases hmsg : assocGet fs "message".data with _ | v
      · have hmd : pyGetD (PyVal.dict fs) "message".data (PyVal.dict [])
            = .ok (PyVal.dict []) := by
          simp [pyGetD, hmsg]
        rw [collectBreakdowns_cons_dict fs rest ls ss [] hmd
          (.s "unknown".data) (.s "unknown".data) rfl rfl]
        exact ih h.2 _ _
      · rw [hmsg] at hm
        rcases v with s | n | b | _ | xs | md <;> try simp [msgDataOk] at hm
        have hmd : pyGetD (PyVal.dict fs) "message".data (PyVal.dict [])
            = .ok (PyVal.dict md) := by
          simp [pyGetD, hmsg]
        have hash1 : hashableVal (pyOr (assocGet md "level".data)
            (pyOr (assocGet md "Level".data) (.str "unknown".data)))
            = true := by
          apply pyOr_hashable (fun v hv => assocGet_hashable hm hv)
          exact pyOr_hashable (fun v hv => assocGet_hashable hm hv) rfl
        have hash2 : hashableVal (pyOr (assocGet md "source".data)
            (pyOr (assocGet md "application".data)
              (pyOr (assocGet md "service".data) (.str "unknown".data))))
            = true := by
          apply pyOr_hashable (fun v hv => assocGet_hashable hm hv)
          apply pyOr_hashable (fun v hv => assocGet_hashable hm hv)
          exact pyOr_hashable (fun v hv => assocGet_hashable hm hv) rfl
        obtain ⟨lk, hlk⟩ := pyHashKey_ok hash1
        obtain ⟨sk, hsk⟩ := pyHashKey_ok hash2
        rw [collectBreakdowns_cons_dict fs rest ls ss md hmd lk sk hlk hsk]
        exact ih h.2 _ _

/-- `_generate_search_hints` returns a hints mapping (no raise) on any list
of well-formed messages, any total and any query. -/
theorem generateSearchHints_ok (msgs : List PyVal) (tot : ℤ) (q : Str)
    (h : msgs.all wellFormedMsg = true) :
    ∃ hints, generateSearchHints msgs tot q = .ok hints := by
  cases hm : msgs.isEmpty
  · obtain ⟨⟨ls, ss⟩, hc⟩ := collectBreakdowns_ok msgs h [] []
    unfold generateSearchHints
    rw [hm]
    simp only [Bool.false_eq_true, if_false, hc, bind_ok_except]
    by_cases hcond : (!ss.isEmpty && decide (ss.length > 1)) = true
    · rw [if_pos hcond]
      rcases htop : (sortByCountDesc ss).take 5 with _ | ⟨⟨k, n⟩, tl⟩
      · exfalso
        rw [Bool.and_eq_true, decide_eq_true_iff] at hcond
        have hz : ((sortByCountDesc ss).take 5).length = 0 := by
          rw [htop]
          rfl
        rw [List.length_take, sortByCountDesc, length_sortLe] at hz
        omega
      · exact ⟨_, rfl⟩
    · rw [if_neg hcond]
      exact ⟨_, rfl⟩
  · refine ⟨emptyHints, ?_⟩
    unfold generateSearchHints
    rw [hm]
    rfl

/-- C8: on any message list whose records are well-formed (possibly empty,
possibly lacking the `message` sub-mapping or any of the
level/source/application/service fields), `_generate_search_hints` returns
a hints mapping without raising, for every total and query; and
`graylog_search` passes the message list through to its response unchanged
(the hint generator only reads the messages — in this embedding all values
are immutable, matching the advisory-only contract). -/
theorem claim_C8 (msgs : List PyVal) (tot : ℤ) (q : Str)
    (h : msgs.all wellFormedMsg = true) :
    (∃ hints, generateSearchHints msgs tot q = .ok hints)
    ∧ (∀ (tr : Option ℤ) (eq2 : Str) (a b : ℚ) (r : SearchShaped),
        graylogSearchShape ⟨msgs, tr⟩ q eq2 a b = .ok r →
        r.messages = msgs) := by
  refine ⟨generateSearchHints_ok msgs tot q h, ?_⟩
  intro tr eq2 a b r hr
  simp only [graylogSearchShape] at hr
  rcases hg : generateSearchHints msgs ((tr).getD (msgs.length : ℤ)) q
      with _ | hints
  · rw [hg] at hr
    exact absurd hr (by simp)
  · rw [hg] at hr
    injection hr with hr
    rw [← hr]

/-- Sparse messages for the C8 witness: an empty record, a record with a
level only, a record with an empty `message` mapping. -/
def msgsC8 : List PyVal :=
  [PyVal.dict [],
   PyVal.dict [("message".data,
     PyVal.dict [("level".data, PyVal.str "ERROR".data)])],
   PyVal.dict [("message".data, PyVal.dict [])]]

/-- C8 witness: the sparse message list is well-formed and hint generation
succeeds on it. -/
theorem claim_C8_witness :
    msgsC8.all wellFormedMsg = true ∧
    (∃ hints, generateSearchHints msgsC8 1000 "q".data = .ok hints) :=
  ⟨by decide, (claim_C8 msgsC8 1000 "q".data (by decide)).1⟩

/-- Python's `//` on the floor of a rational agrees with the floor of the
rational division (divisor 250). -/
theorem fdiv_floor_250 (x : ℚ) : Int.fdiv ⌊x⌋ 250 = ⌊x / 250⌋ := by
  refine eq_of_forall_le_iff fun z => ?_
  rw [Int.fdiv_eq_ediv _ (by norm_num)]
  rw [Int.le_ediv_iff_mul_le (by norm_num : (0 : ℤ) < 250)]
  rw [Int.le_floor, Int.le_floor]
  rw [le_div_iff₀ (by norm_num : (0 : ℚ) < 250)]
  constructor
  · intro hz
    calc ((z : ℚ)) * 250 = ((z * 250 : ℤ) : ℚ) := by push_cast; ring
    _ ≤ x := hz
  · intro hz
    push_cast
    push_cast at hz
    linarith

/-- A concrete stand-in for the `float()` collaborator on plain digit
strings, used to instantiate the scenario bounds. -/
def digitParse (s : Str) : Option ℚ :=
  if s ≠ [] ∧ s.all Char.isDigit then some (digitsToNat s) else none

/-- Scenario query text. -/
def qC9 : Str := "up".data

/-- Scenario start bound `1706356800`. -/
def startC9 : Str := "1706356800".data

/-- Scenario end bound `1706360400`. -/
def endC9 : Str := "1706360400".data

/-- A cold range-query cache with default ttl 60. -/
def cacheC9 : CacheState ℕ := { defaultTtl := 60, ttlOverrides := [], entries := [] }

/-- The scenario cache key. -/
def keyC9 : Str := promRangeCacheKey qC9 startC9 endC9 none

theorem digitParse_startC9 : digitParse startC9 = some 1706356800 := by
  unfold digitParse
  rw [if_pos (by decide), show digitsToNat startC9 = 1706356800 from by decide]
  norm_num

theorem digitParse_endC9 : digitParse endC9 = some 1706360400 := by
  unfold digitParse
  rw [if_pos (by decide), show digitsToNat endC9 = 1706360400 from by decide]
  norm_num

theorem resolveBound_startC9 :
    resolveBound 0 digitParse startC9 = some 1706356800 := by
  unfold resolveBound
  rw [show parseRelativeTime 0 startC9 = none from rfl, digitParse_startC9]

theorem resolveBound_endC9 :
    resolveBound 0 digitParse endC9 = some 1706360400 := by
  unfold resolveBound
  rw [show parseRelativeTime 0 endC9 = none from rfl, digitParse_endC9]

theorem validate_scenario :
    validateTimeRangeProm 0 digitParse startC9 endC9 24
      = .ok (1706356800, 1706360400) := by
  unfold validateTimeRangeProm
  simp only [resolveBound_startC9, resolveBound_endC9]
  rw [if_neg (by norm_num : ¬ (1706360400 : ℚ) ≤ 1706356800)]
  rw [if_neg (by norm_num :
    ¬ ((1706360400 : ℚ) - 1706356800) / 3600 > 24)]

/-- C9: with `step=None` and both bounds resolving to absolute epoch
values `a <= b`, the step `PrometheusClient.query_range` sends is
`max(1, floor((b - a) / 250))` seconds; in particular for the bounds
`1706356800 .. 1706360400` (a 3600-second span) the computed step is
`"14s"`; and in `prometheus_query_range` the first call with these
absolute bounds issues one backend request and writes the cache, while a
second identical call returns the first (cached) result with no backend
request. -/
theorem claim_C9 :
    (∀ (f : Str → Option ℚ) (start endT : Str) (a b : ℚ),
      clientParseTime f start = .ok (.abs a) →
      clientParseTime f endT = .ok (.abs b) → a ≤ b →
      clientRangeParams f start endT none
        = .ok (.abs a, .abs b, intStr (max 1 ⌊(b - a) / 250⌋) ++ "s".data))
    ∧ computeStep (.abs 1706356800) (.abs 1706360400) none = "14s".data
    ∧ prometheusQueryRangeRun digitParse 0 (7 : ℕ) cacheC9 qC9 startC9 endC9
        none 24 = (.ok 7, cacheSet cacheC9 0 keyC9 7, 1)
    ∧ prometheusQueryRangeRun digitParse 0 (8 : ℕ)
        (cacheSet cacheC9 0 keyC9 7) qC9 startC9 endC9 none 24
      = (.ok 7, cacheSet cacheC9 0 keyC9 7, 0) := by
  refine ⟨?_, ?_, ?_, ?_⟩
  · intro f start endT a b hs he hab
    unfold clientRangeParams
    rw [hs, bind_ok_except, he, bind_ok_except]
    simp only [computeStep, pyIntTrunc]
    rw [if_neg (not_lt.2 (sub_nonneg.2 hab)), fdiv_floor_250]
  · have hsub : (1706360400 : ℚ) - 1706356800 = 3600 := by norm_num
    have hfl : ⌊(3600 : ℚ)⌋ = 3600 := by norm_num
    simp only [computeStep, pyIntTrunc, hsub]
    rw [if_neg (by norm_num : ¬ (3600 : ℚ) < 0), hfl]
    decide
  · unfold prometheusQueryRangeRun
    simp only [validate_scenario]
    rw [if_pos (by decide)]
    simp only [show promRangeCacheKey qC9 startC9 endC9 none = keyC9 from rfl,
      show cacheGet cacheC9 0 keyC9 = none from rfl]
  · unfold prometheusQueryRangeRun
    simp only [validate_scenario]
    rw [if_pos (by decide)]
    have hgot : cacheGet (cacheSet cacheC9 0 keyC9 7) 0 keyC9 = some 7 := by
      rw [cacheGet_set_same,
        if_pos (by norm_num [cacheC9] : (0 : ℚ) < 0 + cacheC9.defaultTtl)]
    simp only [show promRangeCacheKey qC9 startC9 endC9 none = keyC9 from rfl,
      hgot]

/-- C9 witness: the general step formula applied at the scenario bounds
through the concrete digit-string parser. -/
theorem claim_C9_witness :
    clientParseTime digitParse startC9 = .ok (.abs 1706356800) ∧
    clientParseTime digitParse endC9 = .ok (.abs 1706360400) ∧
    (1706356800 : ℚ) ≤ 1706360400 ∧
    clientRangeParams digitParse startC9 endC9 none
      = .ok (.abs 1706356800, .abs 1706360400,
          intStr (max 1 ⌊((1706360400 : ℚ) - 1706356800) / 250⌋)
            ++ "s".data) := by
  have h1 : clientParseTime digitParse startC9 = .ok (.abs 1706356800) := by
    unfold clientParseTime
    rw [if_neg (by decide), digitParse_startC9]
  have h2 : clientParseTime digitParse endC9 = .ok (.abs 1706360400) := by
    unfold clientParseTime
    rw [if_neg (by decide), digitParse_endC9]
  exact ⟨h1, h2, by norm_num,
    claim_C9.1 digitParse startC9 endC9 _ _ h1 h2 (by norm_num)⟩

/-- C10: the caching frame of `prometheus_query_range`.  When either bound
is relative (`"now"` or starting with `-`) and validation passes, the run
returns the backend result, leaves any cache state untouched and issues
one backend request — the outcome does not depend on the cache at all.
When both bounds are non-relative, the run consults exactly the key
`"prom_range:" + query + ":" + start + ":" + end + ":" + step`: a hit is
returned with no backend request and no cache write; a miss calls the
backend once and writes exactly that key.  (A validation error also leaves
the cache untouched and calls no backend.) -/
theorem claim_C10 {R : Type} (absParse : Str → Option ℚ) (now : ℚ)
    (backend : R) (cache : CacheState R) (q start endT : Str)
    (step : Option Str) (maxH : ℚ) :
    ((isRelBound start = true ∨ isRelBound endT = true) →
      ∀ p, validateTimeRangeProm now absParse start endT maxH = .ok p →
        prometheusQueryRangeRun absParse now backend cache q start endT step
            maxH = (.ok backend, cache, 1))
    ∧ (isRelBound start = false → isRelBound endT = false →
        ∀ p, validateTimeRangeProm now absParse start endT maxH = .ok p →
        (∀ r, cacheGet cache now (promRangeCacheKey q start endT step)
            = some r →
          prometheusQueryRangeRun absParse now backend cache q start endT
              step maxH = (.ok r, cache, 0))
        ∧ (cacheGet cache now (promRangeCacheKey q start endT step) = none →
          prometheusQueryRangeRun absParse now backend cache q start endT
              step maxH
            = (.ok backend,
               cacheSet cache now (promRangeCacheKey q start endT step)
                 backend, 1)))
    ∧ (∀ e, validateTimeRangeProm now absParse start endT maxH = .error e →
        prometheusQueryRangeRun absParse now backend cache q start endT step
            maxH = (.error e, cache, 0)) := by
  refine ⟨?_, ?_, ?_⟩
  · intro hrel p hval
    unfold prometheusQueryRangeRun
    simp only [hval]
    rw [if_neg (by rcases hrel with h | h <;> simp [h])]
  · intro h1 h2 p hval
    constructor
    · intro r hr
      unfold prometheusQueryRangeRun
      simp only [hval]
      rw [if_pos (by simp [h1, h2])]
      simp only [hr]
    · intro hr
      unfold prometheusQueryRangeRun
      simp only [hval]
      rw [if_pos (by simp [h1, h2])]
      simp only [hr]
  · intro e hval
    unfold prometheusQueryRangeRun
    simp only [hval]

/-- A cache with one unrelated live entry, to exhibit untouched state. -/
def cacheC10 : CacheState ℕ :=
  { defaultTtl := 60, ttlOverrides := [], entries := [("k".data, 9, 100)] }

/-- C10 witness: a `-1h .. now` call at `now = 7200` leaves the concrete
cache untouched and calls the backend once; the absolute scenario bounds
on a cold cache miss, call the backend once and write the range key. -/
theorem claim_C10_witness :
    (isRelBound "-1h".data = true ∧
      prometheusQueryRangeRun (fun _ => none) 7200 (5 : ℕ) cacheC10 qC9
          "-1h".data "now".data none 24 = (.ok 5, cacheC10, 1))
    ∧ (isRelBound startC9 = false ∧ isRelBound endC9 = false ∧
        cacheGet cacheC9 0 keyC9 = none ∧
        prometheusQueryRangeRun digitParse 0 (5 : ℕ) cacheC9 qC9 startC9
            endC9 none 24 = (.ok 5, cacheSet cacheC9 0 keyC9 5, 1)) := by
  have hrel : resolveBound 7200 (fun _ => none) "-1h".data = some 3600 := by
    apply resolveBound_rel
    have hpc := parseRelativeTime_concat 7200 "1".data 'h' (by decide)
      (by decide) (by decide)
    rw [if_neg (by decide), if_pos rfl] at hpc
    rw [show ('-' :: ("1".data ++ ['h'])) = "-1h".data from rfl] at hpc
    rw [hpc, show digitsVal "1".data = 1 from by decide]
    norm_num
  have hnow : resolveBound 7200 (fun _ => none) "now".data = some 7200 :=
    resolveBound_rel _ _ _ _ (by simp [parseRelativeTime])
  have hval : validateTimeRangeProm 7200 (fun _ => none) "-1h".data
      "now".data 24 = .ok (3600, 7200) := by
    unfold validateTimeRangeProm
    simp only [hrel, hnow]
    rw [if_neg (by norm_num : ¬ (7200 : ℚ) ≤ 3600)]
    rw [if_neg (by norm_num : ¬ ((7200 : ℚ) - 3600) / 3600 > 24)]
  refine ⟨⟨by decide, ?_⟩, by decide, by decide, rfl, ?_⟩
  · exact (claim_C10 (fun _ => none) 7200 5 cacheC10 qC9 "-1h".data
      "now".data none 24).1 (Or.inl (by decide)) (3600, 7200) hval
  · exact ((claim_C10 digitParse 0 5 cacheC9 qC9 startC9 endC9 none 24).2.1
      (by decide) (by decide) (1706356800, 1706360400) validate_scenario).2
      rfl

end Overwatch
